import Mathlib

/-
Verification of the stream classes of tap-github (src/tap_github/streams.py):
a shallow embedding of the partition resolution, mode selection, context
propagation, skip-gated record fetching, record post-processing, and the
replication-bookmark tracking of the tap, together with theorems settling
the specified properties.
-/

set_option autoImplicit false

namespace TapGitHub

/-- A JSON-like value, as carried inside the Python dict records and contexts
of the tap.  Objects are association lists in insertion order, mirroring
Python dict semantics. -/
inductive Val where
  | int : Int → Val
  | str : String → Val
  | bool : Bool → Val
  | null : Val
  | arr : List Val → Val
  | obj : List (String × Val) → Val

/-- A context (or a record viewed as a mutable dict): a string-keyed
association list in insertion order. -/
abbrev Context := List (String × Val)

/-- Python dict read: the value of the first matching key, if any. -/
def ctxGet : Context → String → Option Val
  | [], _ => none
  | (k, v) :: rest, key => if k = key then some v else ctxGet rest key

/-- Python dict assignment: overwrite the value in place when the key is
present, otherwise append the new pair at the end. -/
def ctxSet : Context → String → Val → Context
  | [], key, v => [(key, v)]
  | (k, w) :: rest, key, v =>
    if k = key then (k, v) :: rest else (k, w) :: ctxSet rest key v

/-- Removal of a key from a dict (the mutation performed by dict.pop). -/
def ctxRemove : Context → String → Context
  | [], _ => []
  | (k, v) :: rest, key =>
    if k = key then ctxRemove rest key else (k, v) :: ctxRemove rest key

/-- Python dict.pop without a default: yields the value and the dict without
the key, or a KeyError when the key is absent. -/
def ctxPop (ctx : Context) (key : String) : Except String (Val × Context) :=
  match ctxGet ctx key with
  | none => .error ("KeyError: " ++ key)
  | some v => .ok (v, ctxRemove ctx key)

/-- Read of a field of a record value: a dict lookup when the value is an
object, undefined (none) otherwise. -/
def vGet (v : Val) (key : String) : Option Val :=
  match v with
  | .obj fields => ctxGet fields key
  | _ => none

/-- One entry of the searches configuration list: a named search query. -/
structure SearchSpec where
  name : String
  query : String
deriving DecidableEq

/-- The configuration surface the streams read: the optional searches list
and the optional repositories list.  An absent key is modelled as none. -/
structure Config where
  searches : Option (List SearchSpec)
  repositories : Option (List String)

/-- A partition of the repositories stream: either a search partition
(search_name, search_query) or an explicit partition (org, repo). -/
inductive Partition where
  | search (search_name search_query : String)
  | explicit (org repo : String)
deriving DecidableEq

/-- Search API max per page (RepositoryStream.MAX_PER_PAGE). -/
def MAX_PER_PAGE : Nat := 100

/-- Search API total-results ceiling (RepositoryStream.MAX_RESULTS_LIMIT). -/
def MAX_RESULTS_LIMIT : Nat := 1000

/-- Splitting of a character list at every occurrence of the separator,
keeping empty segments, with the current segment accumulated in reverse. -/
def splitChars (sep : Char) : List Char → List Char → List (List Char)
  | [], acc => [acc.reverse]
  | c :: rest, acc =>
    if c = sep then acc.reverse :: splitChars sep rest []
    else splitChars sep rest (c :: acc)

/-- Python str.split with a one-character separator: the segments between
occurrences of the separator, empty segments kept; the split of any string
is non-empty. -/
def pySplit (s : String) (sep : Char) : List String :=
  (splitChars sep s.toList []).map List.asString

/-- One explicit partition from one configured repository string:
r = s.split("/") and then the dict with org = r[0] and repo = r[1];
the indexing raises when the split has fewer than two segments. -/
def explicitPartition (s : String) : Except String Partition :=
  match pySplit s '/' with
  | r0 :: r1 :: _ => .ok (.explicit r0 r1)
  | _ => .error "list index out of range"

/-- Left-to-right evaluation of the partitions list comprehension over the
split repository names, stopping at the first raised indexing error. -/
def explicitPartitions : List String → Except String (List Partition)
  | [] => .ok []
  | s :: rest =>
    match explicitPartition s with
    | .error e => .error e
    | .ok p =>
      match explicitPartitions rest with
      | .error e => .error e
      | .ok ps => .ok (p :: ps)

/-- RepositoryStream.partitions: search partitions when searches is
configured, explicit org/repo partitions when repositories is configured,
none otherwise.  The value is wrapped in Except because the explicit branch
can raise an indexing error on a malformed repository string. -/
def partitions (cfg : Config) : Except String (Option (List Partition)) :=
  match cfg.searches with
  | some ss => .ok (some (ss.map fun s => .search s.name s.query))
  | none =>
    match cfg.repositories with
    | some repos => (explicitPartitions repos).map some
    | none => .ok none

/-- RepositoryStream.path: the search endpoint when searches is configured,
the templated single-repository path otherwise. -/
def path (cfg : Config) : String :=
  if cfg.searches.isSome then "/search/repositories" else "/repos/{org}/{repo}"

/-- RepositoryStream.records_jsonpath: the items-array locator in search
mode, the whole-body locator otherwise. -/
def records_jsonpath (cfg : Config) : String :=
  if cfg.searches.isSome then "$.items[*]" else "$[*]"

/-- Evaluation of the jsonpath $.items[*] on a parsed response body:
every element of the items array of the body object. -/
def extractItems (body : Val) : List Val :=
  match body with
  | .obj fields =>
    match ctxGet fields "items" with
    | some (.arr xs) => xs
    | _ => []
  | _ => []

/-- RepositoryStream.parse_response: in search mode the base-class jsonpath
extraction of $.items[*]; in direct mode the whole response body as one
record. -/
def parse_response (cfg : Config) (body : Val) : List Val :=
  if cfg.searches.isSome then extractItems body else [body]

/-- RepositoryStream.get_child_context: the fresh context holding the
record owner login as org and the record name as repo; a missing field
raises. -/
def repositoryGetChildContext (record : Val) : Except String Context :=
  match vGet record "owner" with
  | none => .error "KeyError: owner"
  | some owner =>
    match vGet owner "login" with
    | none => .error "KeyError: login"
    | some login =>
      match vGet record "name" with
      | none => .error "KeyError: name"
      | some nm => .ok [("org", login), ("repo", nm)]

/-- IssuesStream.get_child_context: raises on a blank context, otherwise
adds issue_number = record.number and comments = record.comments to the
given context and returns it. -/
def issuesGetChildContext (record : Val) (context : Option Context) :
    Except String Context :=
  match context with
  | none => .error "Issue stream should not have blank context."
  | some ctx =>
    match vGet record "number" with
    | none => .error "KeyError: number"
    | some n =>
      match vGet record "comments" with
      | none => .error "KeyError: comments"
      | some c => .ok (ctxSet (ctxSet ctx "issue_number" n) "comments" c)

/-- The outcome of a get_records call: the records produced and how many
delegations to the base-class fetch path occurred. -/
structure FetchResult where
  records : List Val
  fetchCalls : Nat

/-- Python truthiness of an optional dict: a present, non-empty dict. -/
def pyTruthy (ctx : Context) : Bool := !ctx.isEmpty

/-- Python equality of context.get(key, None) with the literal 0: the int 0
(and the bool False, which Python also equates with 0); None and every
other value compare unequal. -/
def pyEqZero : Option Val → Bool
  | some (.int n) => n == 0
  | some (.bool b) => b == false
  | _ => false

/-- The skip gate shared by the events, issue_comments and issue_events
streams: when the context is truthy and its counter key compares equal to
0, return no records without any fetch; otherwise delegate to the base
fetch path. -/
def skipGatedGetRecords (counterKey : String)
    (fetch : Option Context → List Val) : Option Context → FetchResult
  | some ctx =>
    if pyTruthy ctx && pyEqZero (ctxGet ctx counterKey)
    then FetchResult.mk [] 0
    else FetchResult.mk (fetch (some ctx)) 1
  | none => FetchResult.mk (fetch none) 1

/-- EventsStream.get_records: gated on the events counter of the context. -/
def eventsGetRecords (fetch : Option Context → List Val)
    (context : Option Context) : FetchResult :=
  skipGatedGetRecords "events" fetch context

/-- IssueCommentsStream.get_records: gated on the comments counter of the
context. -/
def issueCommentsGetRecords (fetch : Option Context → List Val)
    (context : Option Context) : FetchResult :=
  skipGatedGetRecords "comments" fetch context

/-- IssueEventsStream.get_records: gated on the events counter of the
context. -/
def issueEventsGetRecords (fetch : Option Context → List Val)
    (context : Option Context) : FetchResult :=
  skipGatedGetRecords "events" fetch context

/-- EventsStream.post_process: target_repo takes the popped repo value,
then target_org takes the popped org value; a missing source key raises
KeyError. -/
def eventsPostProcess (row : Context) : Except String Context :=
  match ctxPop row "repo" with
  | .error e => .error e
  | .ok (repoVal, row1) =>
    match ctxPop (ctxSet row1 "target_repo" repoVal) "org" with
    | .error e => .error e
    | .ok (orgVal, row3) => .ok (ctxSet row3 "target_org" orgVal)

/-- The dict produced by EventsStream.post_process on a record holding the
values rv at repo and ov at org: repo and org removed, target_repo and
target_org added in that order. -/
def eventsPostOut (row : Context) (rv ov : Val) : Context :=
  ctxSet (ctxRemove (ctxSet (ctxRemove row "repo") "target_repo" rv) "org")
    "target_org" ov

/-- The numeric value of a list of decimal digit characters. -/
def digitsToNat (ds : List Char) : Nat :=
  ds.foldl (fun n c => n * 10 + (c.toNat - 48)) 0

/-- A decimal integer literal as accepted by the Python int() builtin on a
string: an optional sign followed by at least one digit. -/
def parseDecInt (s : String) : Option Int :=
  match s.toList with
  | '-' :: ds => if ds ≠ [] ∧ ds.all Char.isDigit
                 then some (-(Int.ofNat (digitsToNat ds))) else none
  | ds => if ds ≠ [] ∧ ds.all Char.isDigit
          then some (Int.ofNat (digitsToNat ds)) else none

/-- The Python int() builtin on a value: the identity on ints, decimal
parsing on strings (raising ValueError on a non-numeric string), a
TypeError elsewhere. -/
def pyInt : Val → Except String Int
  | .int n => .ok n
  | .str s =>
    match parseDecInt s with
    | some n => .ok n
    | none => .error "ValueError: invalid literal for int"
  | _ => .error "TypeError: int() argument"

/-- The trailing segment of a '/'-separated string: split("/")[-1].  The
split of any string is non-empty, so the indexing never raises. -/
def trailingSegment (s : String) : String := (pySplit s '/').getLastD ""

/-- IssueCommentsStream.post_process: issue_number takes the integer parsed
from the trailing path segment of issue_url; a missing issue_url raises
KeyError, a non-string one raises at the split attribute access. -/
def issueCommentsPostProcess (row : Context) : Except String Context :=
  match ctxGet row "issue_url" with
  | none => .error "KeyError: issue_url"
  | some (.str url) =>
    match pyInt (.str (trailingSegment url)) with
    | .error e => .error e
    | .ok n => .ok (ctxSet row "issue_number" (.int n))
  | some _ => .error "AttributeError: split"

/-- IssueEventsStream.post_process: issue_number takes int(issue.number)
and then issue_url takes issue.url from the nested issue sub-object; a
missing issue sub-object or field raises. -/
def issueEventsPostProcess (row : Context) : Except String Context :=
  match ctxGet row "issue" with
  | none => .error "KeyError: issue"
  | some issue =>
    match vGet issue "number" with
    | none => .error "KeyError: number"
    | some numVal =>
      match pyInt numVal with
      | .error e => .error e
      | .ok n =>
        match vGet issue "url" with
        | none => .error "KeyError: url"
        | some u => .ok (ctxSet (ctxSet row "issue_number" (.int n)) "issue_url" u)

/-- EventsStream.replication_key. -/
def events_replication_key : String := "created_at"

/-- IssuesStream.replication_key. -/
def issues_replication_key : String := "updated_at"

/-- IssueCommentsStream.replication_key. -/
def issue_comments_replication_key : String := "updated_at"

/-- IssueEventsStream.replication_key. -/
def issue_events_replication_key : String := "created_at"

/-- The state partitioning keys every child stream declares. -/
def state_partitioning_keys : List String := ["repo", "org"]

/-- The identifying key tuple of a partition for bookmark purposes: the
values at the declared state partitioning keys (repo, org). -/
abbrev PartKeyTuple := String × String

/-- The bookmark map: the last-seen replication-key value per partition
key tuple, for one stream. -/
abbrev Bookmarks := List (PartKeyTuple × Int)

/-- Modelled from the spec: the read side of the ReplicationStateTracker
(the incremental-state machinery lives in the singer_sdk base classes, not
under src/): the current bookmark of a partition, if one was recorded. -/
def getBookmark : Bookmarks → PartKeyTuple → Option Int
  | [], _ => none
  | (k, v) :: rest, key => if k = key then some v else getBookmark rest key

/-- Modelled from the spec: recording a bookmark value for a partition,
overwriting in place or appending. -/
def setBookmark : Bookmarks → PartKeyTuple → Int → Bookmarks
  | [], key, v => [(key, v)]
  | (k, w) :: rest, key, v =>
    if k = key then (k, v) :: rest else (k, w) :: setBookmark rest key v

/-- Modelled from the spec: the ReplicationStateTracker observing one
record of a replication-keyed stream (the tracker itself lives in the
singer_sdk base classes, not under src/): the record value at the
replication key is compared against the current bookmark of the record
partition and the bookmark is raised when the new value is greater; a
partition with no bookmark yet records the value. -/
def observeRecord (bm : Bookmarks) (key : PartKeyTuple) (v : Int) : Bookmarks :=
  match getBookmark bm key with
  | none => setBookmark bm key v
  | some cur => if cur < v then setBookmark bm key v else bm

/-- A sequence of record observations applied in order. -/
def observeAll (bm : Bookmarks) (obs : List (PartKeyTuple × Int)) : Bookmarks :=
  obs.foldl (fun b o => observeRecord b o.1 o.2) bm

/-- Modelled from the spec: the search-mode paginator of the base client
(client.py, not under src/): pages are requested sequentially with at most
MAX_PER_PAGE results each, a short or empty page ends the iteration, and
the iteration never continues past min(total_count, MAX_RESULTS_LIMIT)
results; the fuel argument bounds the page count. -/
def searchCollect (pages : Nat → List Val) (totalCount : Nat) :
    Nat → Nat → List Val
  | _, 0 => []
  | i, fuel + 1 =>
    if ((pages i).take MAX_PER_PAGE).length < MAX_PER_PAGE
    then (pages i).take MAX_PER_PAGE
    else
      (pages i).take MAX_PER_PAGE ++
        (if (i + 1) * MAX_PER_PAGE < min totalCount MAX_RESULTS_LIMIT
         then searchCollect pages totalCount (i + 1) fuel
         else [])

/-- Modelled from the spec: the record stream of one search partition,
over at most MAX_RESULTS_LIMIT / MAX_PER_PAGE = 10 pages. -/
def searchPaginate (pages : Nat → List Val) (totalCount : Nat) : List Val :=
  searchCollect pages totalCount 0 (MAX_RESULTS_LIMIT / MAX_PER_PAGE)

/-! Helper lemmas about the dict operations. -/

theorem ctxGet_ctxSet (ctx : Context) (k kq : String) (v : Val) :
    ctxGet (ctxSet ctx k v) kq = if kq = k then some v else ctxGet ctx kq := by
  induction ctx with
  | nil =>
    by_cases h : kq = k
    · simp [ctxSet, ctxGet, h]
    · simp [ctxSet, ctxGet, h, Ne.symm h]
  | cons p rest ih =>
    obtain ⟨a, w⟩ := p
    by_cases hak : a = k
    · subst hak
      by_cases h : kq = a
      · simp [ctxSet, ctxGet, h]
      · simp [ctxSet, ctxGet, h, Ne.symm h]
    · by_cases h : kq = a
      · subst h
        simp [ctxSet, ctxGet, hak, Ne.symm hak]
      · simp [ctxSet, ctxGet, hak, h, Ne.symm h, ih]

theorem ctxGet_ctxRemove (ctx : Context) (k kq : String) :
    ctxGet (ctxRemove ctx k) kq = if kq = k then none else ctxGet ctx kq := by
  induction ctx with
  | nil => by_cases h : kq = k <;> simp [ctxRemove, ctxGet, h]
  | cons p rest ih =>
    obtain ⟨a, w⟩ := p
    by_cases hak : a = k
    · subst hak
      by_cases h : kq = a
      · subst h
        simp [ctxRemove, ih]
      · simp [ctxRemove, ctxGet, ih, h, Ne.symm h]
    · by_cases h : kq = a
      · subst h
        simp [ctxRemove, ctxGet, hak, Ne.symm hak]
      · simp [ctxRemove, ctxGet, hak, h, Ne.symm h, ih]

theorem ctxGet_nil (kq : String) : ctxGet [] kq = none := rfl

theorem ctxGet_ne_nil {ctx : Context} {kq : String} {v : Val}
    (h : ctxGet ctx kq = some v) : ctx ≠ [] := by
  intro hnil
  subst hnil
  simp [ctxGet] at h

/-! Helper lemmas about partition resolution. -/

theorem pySplit_ne_nil (s : String) : pySplit s '/' ≠ [] := by
  unfold pySplit
  have h : ∀ (cs acc : List Char), splitChars '/' cs acc ≠ [] := by
    intro cs
    induction cs with
    | nil => intro acc; simp [splitChars]
    | cons c rest ih =>
      intro acc
      by_cases hc : c = '/' <;> simp [splitChars, hc, ih]
  simp [h]

theorem explicitPartition_ok (s : String) (h : 2 ≤ (pySplit s '/').length) :
    explicitPartition s =
      .ok (.explicit ((pySplit s '/').headD "")
                     (((pySplit s '/').drop 1).headD "")) := by
  unfold explicitPartition
  cases hs : pySplit s '/' with
  | nil => rw [hs] at h; simp at h
  | cons r0 tl =>
    cases tl with
    | nil => rw [hs] at h; simp at h
    | cons r1 rest => simp

theorem explicitPartition_err (s : String) (h : (pySplit s '/').length < 2) :
    explicitPartition s = .error "list index out of range" := by
  unfold explicitPartition
  cases hs : pySplit s '/' with
  | nil => simp
  | cons r0 tl =>
    cases tl with
    | nil => simp
    | cons r1 rest =>
      exfalso
      rw [hs] at h
      simp only [List.length_cons] at h
      omega

theorem explicitPartition_err_msg (s : String) (e : String)
    (h : explicitPartition s = .error e) : e = "list index out of range" := by
  unfold explicitPartition at h
  cases hs : pySplit s '/' with
  | nil => rw [hs] at h; simp at h; exact h.symm
  | cons r0 tl =>
    cases tl with
    | nil => rw [hs] at h; simp at h; exact h.symm
    | cons r1 rest => rw [hs] at h; simp at h

theorem explicitPartitions_ok (repos : List String)
    (h : ∀ s ∈ repos, 2 ≤ (pySplit s '/').length) :
    explicitPartitions repos =
      .ok (repos.map fun s =>
        Partition.explicit ((pySplit s '/').headD "")
                           (((pySplit s '/').drop 1).headD "")) := by
  induction repos with
  | nil => simp [explicitPartitions]
  | cons s rest ih =>
    have hs := h s (by simp)
    have hrest : ∀ t ∈ rest, 2 ≤ (pySplit t '/').length := by
      intro t ht; exact h t (by simp [ht])
    simp [explicitPartitions, explicitPartition_ok s hs, ih hrest]

theorem explicitPartitions_err (repos : List String)
    (h : ∃ s ∈ repos, (pySplit s '/').length < 2) :
    explicitPartitions repos = .error "list index out of range" := by
  induction repos with
  | nil => simp at h
  | cons s rest ih =>
    obtain ⟨t, ht, hlt⟩ := h
    rcases List.mem_cons.mp ht with rfl | htr
    · simp [explicitPartitions, explicitPartition_err t hlt]
    · cases hp : explicitPartition s with
      | error e =>
        simp [explicitPartitions, hp, explicitPartition_err_msg s e hp]
      | ok p =>
        simp [explicitPartitions, hp, ih ⟨t, htr, hlt⟩]

/-! Helper lemmas about the skip gate. -/

theorem skipGated_skip (key : String) (fetch : Option Context → List Val)
    (ctx : Context) (h : ctxGet ctx key = some (Val.int 0)) :
    skipGatedGetRecords key fetch (some ctx) = FetchResult.mk [] 0 := by
  cases ctx with
  | nil => simp [ctxGet] at h
  | cons p rest =>
    simp [skipGatedGetRecords, pyTruthy, h, pyEqZero]

theorem skipGated_delegate_none (key : String)
    (fetch : Option Context → List Val) (ctx : Context)
    (h : ctxGet ctx key = none) :
    skipGatedGetRecords key fetch (some ctx) =
      FetchResult.mk (fetch (some ctx)) 1 := by
  simp [skipGatedGetRecords, h, pyEqZero]

theorem skipGated_delegate_nonzero (key : String)
    (fetch : Option Context → List Val) (ctx : Context) (n : Int)
    (h : ctxGet ctx key = some (Val.int n)) (hn : n ≠ 0) :
    skipGatedGetRecords key fetch (some ctx) =
      FetchResult.mk (fetch (some ctx)) 1 := by
  simp [skipGatedGetRecords, h, pyEqZero, hn]

/-! Helper lemmas about the bookmark tracker. -/

theorem getBookmark_setBookmark (bm : Bookmarks) (key kq : PartKeyTuple)
    (v : Int) :
    getBookmark (setBookmark bm key v) kq =
      if kq = key then some v else getBookmark bm kq := by
  induction bm with
  | nil =>
    by_cases h : kq = key
    · simp [setBookmark, getBookmark, h]
    · simp [setBookmark, getBookmark, h, Ne.symm h]
  | cons p rest ih =>
    obtain ⟨a, w⟩ := p
    by_cases hak : a = key
    · subst hak
      by_cases h : kq = a
      · simp [setBookmark, getBookmark, h]
      · simp [setBookmark, getBookmark, h, Ne.symm h]
    · by_cases h : kq = a
      · subst h
        simp [setBookmark, getBookmark, hak, Ne.symm hak]
      · simp [setBookmark, getBookmark, hak, h, Ne.symm h, ih]

theorem observeRecord_same (bm : Bookmarks) (key : PartKeyTuple)
    (v cur : Int) (h : getBookmark bm key = some cur) :
    getBookmark (observeRecord bm key v) key = some (max cur v) := by
  unfold observeRecord
  rw [h]
  by_cases hlt : cur < v
  · simp [hlt, getBookmark_setBookmark, max_eq_right (le_of_lt hlt)]
  · simp [hlt, h, max_eq_left (not_lt.mp hlt)]

theorem observeRecord_other (bm : Bookmarks) (key kq : PartKeyTuple)
    (v : Int) (h : kq ≠ key) :
    getBookmark (observeRecord bm key v) kq = getBookmark bm kq := by
  unfold observeRecord
  cases hb : getBookmark bm key with
  | none => simp [getBookmark_setBookmark, h]
  | some cur =>
    by_cases hlt : cur < v <;> simp [hlt, getBookmark_setBookmark, h]

theorem observeRecord_mono (bm : Bookmarks) (key kq : PartKeyTuple)
    (v cur : Int) (h : getBookmark bm kq = some cur) :
    ∃ c, getBookmark (observeRecord bm key v) kq = some c ∧ cur ≤ c := by
  by_cases hk : kq = key
  · subst hk
    exact ⟨max cur v, observeRecord_same bm kq v cur h, le_max_left cur v⟩
  · exact ⟨cur, (observeRecord_other bm key kq v hk).trans h, le_refl cur⟩

theorem observeAll_mono (obs : List (PartKeyTuple × Int)) (bm : Bookmarks)
    (kq : PartKeyTuple) (cur : Int) (h : getBookmark bm kq = some cur) :
    ∃ c, getBookmark (observeAll bm obs) kq = some c ∧ cur ≤ c := by
  induction obs generalizing bm cur with
  | nil => exact ⟨cur, h, le_refl cur⟩
  | cons o rest ih =>
    obtain ⟨c1, hc1, hle1⟩ := observeRecord_mono bm o.1 kq o.2 cur h
    obtain ⟨c2, hc2, hle2⟩ := ih (observeRecord bm o.1 o.2) c1 hc1
    exact ⟨c2, hc2, le_trans hle1 hle2⟩

/-! Helper lemma about the search pagination ceiling. -/

theorem searchCollect_length_le (pages : Nat → List Val) (totalCount : Nat) :
    ∀ (fuel i : Nat),
      (searchCollect pages totalCount i fuel).length ≤ fuel * MAX_PER_PAGE := by
  intro fuel
  induction fuel with
  | zero => intro i; simp [searchCollect]
  | succ fuel ih =>
    intro i
    have htake : ((pages i).take MAX_PER_PAGE).length ≤ MAX_PER_PAGE := by
      rw [List.length_take]
      exact min_le_left _ _
    have hfp : MAX_PER_PAGE ≤ (fuel + 1) * MAX_PER_PAGE := by
      rw [Nat.succ_mul]
      exact Nat.le_add_left _ _
    unfold searchCollect
    by_cases hshort : ((pages i).take MAX_PER_PAGE).length < MAX_PER_PAGE
    · rw [if_pos hshort]
      exact le_trans htake hfp
    · rw [if_neg hshort]
      by_cases hcont :
        (i + 1) * MAX_PER_PAGE < min totalCount MAX_RESULTS_LIMIT
      · rw [if_pos hcont, List.length_append]
        calc ((pages i).take MAX_PER_PAGE).length
              + (searchCollect pages totalCount (i + 1) fuel).length
            ≤ MAX_PER_PAGE + fuel * MAX_PER_PAGE :=
              Nat.add_le_add htake (ih (i + 1))
          _ = (fuel + 1) * MAX_PER_PAGE := by ring
      · rw [if_neg hcont, List.length_append]
        simp only [List.length_nil, Nat.add_zero]
        exact le_trans htake hfp

/-! Shape lemmas for the two child-context propagators. -/

theorem repositoryGetChildContext_shape (record : Val) (c : Context)
    (h : repositoryGetChildContext record = .ok c) :
    ∃ owner login nm, vGet record "owner" = some owner
      ∧ vGet owner "login" = some login
      ∧ vGet record "name" = some nm
      ∧ c = [("org", login), ("repo", nm)] := by
  unfold repositoryGetChildContext at h
  split at h
  · simp at h
  · rename_i owner ho
    split at h
    · simp at h
    · rename_i login hl
      split at h
      · simp at h
      · rename_i nm hn
        simp only [Except.ok.injEq] at h
        exact ⟨owner, login, nm, ho, hl, hn, h.symm⟩

theorem issuesGetChildContext_shape (record : Val) (ctx c : Context)
    (h : issuesGetChildContext record (some ctx) = .ok c) :
    ∃ n cm, vGet record "number" = some n
      ∧ vGet record "comments" = some cm
      ∧ c = ctxSet (ctxSet ctx "issue_number" n) "comments" cm := by
  unfold issuesGetChildContext at h
  split at h
  · rename_i heq
    exact absurd heq (by simp)
  · rename_i ctx2 heq
    obtain rfl : ctx2 = ctx := by
      injection heq with hh
      exact hh.symm
    split at h
    · simp at h
    · rename_i n hn
      split at h
      · simp at h
      · rename_i cm hc
        simp only [Except.ok.injEq] at h
        exact ⟨n, cm, hn, hc, h.symm⟩

/-! The claims. -/

/-- C1 counterexample: the claim says a repositories entry with more than
one '/' raises a configuration error, but the code silently produces the
partition of the first two split segments: "a/b/c" yields the partition
org = "a", repo = "b" and no error. -/
theorem partitions_extra_segments_counterexample :
    partitions (Config.mk none (some ["a/b/c"])) =
      .ok (some [Partition.explicit "a" "b"]) := rfl

/-- C1 (amended): a repositories entry splitting into at least two
segments on '/' (even more than two, or empty ones) silently yields the
partition of the first two segments; only an entry with zero '/' raises,
and then with a low-level index error. -/
theorem partitions_split_amended (repos : List String) :
    ((∀ s ∈ repos, 2 ≤ (pySplit s '/').length) →
       partitions (Config.mk none (some repos)) =
         .ok (some (repos.map fun s =>
           Partition.explicit ((pySplit s '/').headD "")
                              (((pySplit s '/').drop 1).headD ""))))
  ∧ ((∃ s ∈ repos, (pySplit s '/').length < 2) →
       partitions (Config.mk none (some repos)) =
         .error "list index out of range") := by
  constructor
  · intro h
    simp [partitions, explicitPartitions_ok repos h, Except.map]
  · intro h
    simp [partitions, explicitPartitions_err repos h, Except.map]

/-- C1 witness: a well-formed repository string produces its explicit
partition. -/
theorem partitions_split_amended_witness :
    partitions (Config.mk none (some ["octo/hello-world"])) =
      .ok (some [Partition.explicit "octo" "hello-world"]) :=
  (partitions_split_amended ["octo/hello-world"]).1 (by decide)

/-- C2: for every skip-gated child stream and every context, a present
counter key equal to 0 yields an empty record set with no fetch, while an
absent or nonzero counter key delegates to the normal fetch path. -/
theorem skip_gate_spec (fetch : Option Context → List Val) (ctx : Context) :
    (ctxGet ctx "events" = some (Val.int 0) →
        eventsGetRecords fetch (some ctx) = FetchResult.mk [] 0
      ∧ issueEventsGetRecords fetch (some ctx) = FetchResult.mk [] 0)
  ∧ (ctxGet ctx "comments" = some (Val.int 0) →
        issueCommentsGetRecords fetch (some ctx) = FetchResult.mk [] 0)
  ∧ ((ctxGet ctx "events" = none ∨
        ∃ n, ctxGet ctx "events" = some (Val.int n) ∧ n ≠ 0) →
        eventsGetRecords fetch (some ctx) =
          FetchResult.mk (fetch (some ctx)) 1
      ∧ issueEventsGetRecords fetch (some ctx) =
          FetchResult.mk (fetch (some ctx)) 1)
  ∧ ((ctxGet ctx "comments" = none ∨
        ∃ n, ctxGet ctx "comments" = some (Val.int n) ∧ n ≠ 0) →
        issueCommentsGetRecords fetch (some ctx) =
          FetchResult.mk (fetch (some ctx)) 1) := by
  refine ⟨fun h => ⟨?_, ?_⟩, fun h => ?_, fun h => ⟨?_, ?_⟩, fun h => ?_⟩
  · exact skipGated_skip "events" fetch ctx h
  · exact skipGated_skip "events" fetch ctx h
  · exact skipGated_skip "comments" fetch ctx h
  · rcases h with h | ⟨n, hn, hn0⟩
    · exact skipGated_delegate_none "events" fetch ctx h
    · exact skipGated_delegate_nonzero "events" fetch ctx n hn hn0
  · rcases h with h | ⟨n, hn, hn0⟩
    · exact skipGated_delegate_none "events" fetch ctx h
    · exact skipGated_delegate_nonzero "events" fetch ctx n hn hn0
  · rcases h with h | ⟨n, hn, hn0⟩
    · exact skipGated_delegate_none "comments" fetch ctx h
    · exact skipGated_delegate_nonzero "comments" fetch ctx n hn hn0

/-- C2 witness: at a context with events = 0 the events stream yields no
records and no fetch, and at a context with comments = 5 the comments
stream performs its normal fetch. -/
theorem skip_gate_spec_witness :
    eventsGetRecords (fun _ => [Val.int 7])
        (some [("events", Val.int 0)]) = FetchResult.mk [] 0
  ∧ issueCommentsGetRecords (fun _ => [Val.int 7])
        (some [("comments", Val.int 5)]) =
      FetchResult.mk [Val.int 7] 1 :=
  ⟨((skip_gate_spec (fun _ => [Val.int 7]) [("events", Val.int 0)]).1
      rfl).1,
   (skip_gate_spec (fun _ => [Val.int 7]) [("comments", Val.int 5)]).2.2.2
      (Or.inr ⟨5, rfl, by decide⟩)⟩

/-- C4: the presence of the searches configuration key decides the root
stream's path, extraction pattern and response parsing consistently:
search mode uses the fixed search endpoint and selects every element of
the items array, direct mode uses the templated path and emits the whole
response body as exactly one record. -/
theorem mode_selector_spec (cfg : Config) (body : Val) :
    (cfg.searches.isSome →
        path cfg = "/search/repositories"
      ∧ records_jsonpath cfg = "$.items[*]"
      ∧ ∀ fields xs, ctxGet fields "items" = some (Val.arr xs) →
          parse_response cfg (Val.obj fields) = xs)
  ∧ (cfg.searches = none →
        path cfg = "/repos/{org}/{repo}"
      ∧ parse_response cfg body = [body]) := by
  constructor
  · intro h
    refine ⟨by simp [path, h], by simp [records_jsonpath, h], ?_⟩
    intro fields xs hx
    simp [parse_response, h, extractItems, hx]
  · intro h
    have h2 : cfg.searches.isSome = false := by simp [h]
    exact ⟨by simp [path, h2], by simp [parse_response, h2]⟩

/-- C4 witness: with no searches key the path is the templated
single-repository endpoint and the whole body comes back as one record. -/
theorem mode_selector_spec_witness :
    path (Config.mk none (some ["octo/hello-world"])) = "/repos/{org}/{repo}"
  ∧ parse_response (Config.mk none (some ["octo/hello-world"]))
      (Val.str "body") = [Val.str "body"] :=
  (mode_selector_spec (Config.mk none (some ["octo/hello-world"]))
    (Val.str "body")).2 rfl

/-- C5: partitions returns the ordered search partitions when searches is
configured (repositories being ignored), else the ordered explicit
org/repo partitions when repositories is configured (and well formed),
else none. -/
theorem partitions_spec (cfg : Config) :
    (∀ ss, cfg.searches = some ss →
       partitions cfg =
         .ok (some (ss.map fun s => Partition.search s.name s.query)))
  ∧ (cfg.searches = none → ∀ repos, cfg.repositories = some repos →
       (∀ s ∈ repos, 2 ≤ (pySplit s '/').length) →
       partitions cfg =
         .ok (some (repos.map fun s =>
           Partition.explicit ((pySplit s '/').headD "")
                              (((pySplit s '/').drop 1).headD ""))))
  ∧ (cfg.searches = none → cfg.repositories = none →
       partitions cfg = .ok none) := by
  refine ⟨?_, ?_, ?_⟩
  · intro ss hss
    simp [partitions, hss]
  · intro hs repos hr h
    simp [partitions, hs, hr, explicitPartitions_ok repos h, Except.map]
  · intro hs hr
    simp [partitions, hs, hr]

/-- C5 witness: with both searches and repositories configured, the search
partitions are produced in order and repositories is ignored. -/
theorem partitions_spec_witness :
    partitions (Config.mk
        (some [SearchSpec.mk "s1" "q1", SearchSpec.mk "s2" "q2"])
        (some ["ignored"])) =
      .ok (some [Partition.search "s1" "q1", Partition.search "s2" "q2"]) :=
  (partitions_spec (Config.mk
      (some [SearchSpec.mk "s1" "q1", SearchSpec.mk "s2" "q2"])
      (some ["ignored"]))).1
    [SearchSpec.mk "s1" "q1", SearchSpec.mk "s2" "q2"] rfl

/-- C3: along the propagation chain the root hop sets exactly org from the
record owner login and repo from the record name, and the issues hop keeps
org and repo (and every other previously set key) unchanged while adding
only issue_number from the record number and comments from the record
comments. -/
theorem context_propagation_spec (repoRecord issueRecord : Val)
    (c0 c1 : Context)
    (h0 : repositoryGetChildContext repoRecord = .ok c0)
    (h1 : issuesGetChildContext issueRecord (some c0) = .ok c1) :
    ((vGet repoRecord "owner").bind (fun o => vGet o "login") =
        ctxGet c0 "org")
  ∧ vGet repoRecord "name" = ctxGet c0 "repo"
  ∧ (∀ k, k ≠ "org" → k ≠ "repo" → ctxGet c0 k = none)
  ∧ ctxGet c1 "org" = ctxGet c0 "org"
  ∧ ctxGet c1 "repo" = ctxGet c0 "repo"
  ∧ vGet issueRecord "number" = ctxGet c1 "issue_number"
  ∧ vGet issueRecord "comments" = ctxGet c1 "comments"
  ∧ (∀ k, k ≠ "issue_number" → k ≠ "comments" →
        ctxGet c1 k = ctxGet c0 k) := by
  obtain ⟨owner, login, nm, ho, hl, hn, rfl⟩ :=
    repositoryGetChildContext_shape repoRecord c0 h0
  obtain ⟨n, cm, hnum, hcom, rfl⟩ :=
    issuesGetChildContext_shape issueRecord _ c1 h1
  refine ⟨?_, ?_, ?_, ?_, ?_, ?_, ?_, ?_⟩
  · rw [ho]
    simp [hl, ctxGet]
  · rw [hn]
    simp [ctxGet]
  · intro k hk1 hk2
    simp [ctxGet, Ne.symm hk1, Ne.symm hk2]
  · simp [ctxGet_ctxSet]
  · simp [ctxGet_ctxSet]
  · rw [hnum]
    simp [ctxGet_ctxSet]
  · rw [hcom]
    simp [ctxGet_ctxSet]
  · intro k hk1 hk2
    simp [ctxGet_ctxSet, hk1, hk2]

/-- C3 witness: at a concrete repository record and issue record the
issues-hop context keeps the org value of the root-hop context. -/
theorem context_propagation_spec_witness :
    ctxGet [("org", Val.str "octo"), ("repo", Val.str "hello-world"),
            ("issue_number", Val.int 42), ("comments", Val.int 7)] "org" =
      ctxGet [("org", Val.str "octo"), ("repo", Val.str "hello-world")]
        "org" :=
  (context_propagation_spec
    (Val.obj [("owner", Val.obj [("login", Val.str "octo")]),
              ("name", Val.str "hello-world")])
    (Val.obj [("number", Val.int 42), ("comments", Val.int 7)])
    [("org", Val.str "octo"), ("repo", Val.str "hello-world")]
    [("org", Val.str "octo"), ("repo", Val.str "hello-world"),
     ("issue_number", Val.int 42), ("comments", Val.int 7)]
    rfl rfl).2.2.2.1

/-- C6: per-partition bookmarks are raised to the record value exactly when
it exceeds the current bookmark, an observation of one partition leaves
every other partition's bookmark unchanged, and across any sequence of
observations a partition's bookmark never decreases. -/
theorem bookmark_monotonic_spec :
    (∀ bm key v cur, getBookmark bm key = some cur →
       getBookmark (observeRecord bm key v) key = some (max cur v))
  ∧ (∀ bm key kq v, kq ≠ key →
       getBookmark (observeRecord bm key v) kq = getBookmark bm kq)
  ∧ (∀ bm obs kq cur, getBookmark bm kq = some cur →
       ∃ c, getBookmark (observeAll bm obs) kq = some c ∧ cur ≤ c) :=
  ⟨observeRecord_same,
   fun bm key kq v h => observeRecord_other bm key kq v h,
   fun bm obs kq cur h => observeAll_mono obs bm kq cur h⟩

/-- C6 witness: a partition bookmarked at 3 is raised to 5 by observing 5,
and a sequence of observations of that partition and another one leaves it
at a value no smaller than 3. -/
theorem bookmark_monotonic_spec_witness :
    getBookmark (observeRecord [(("r", "o"), 3)] ("r", "o") 5) ("r", "o") =
      some (max 3 5)
  ∧ ∃ c, getBookmark
        (observeAll [(("r", "o"), 3)]
          [(("r", "o"), 5), (("r2", "o2"), 1), (("r", "o"), 4)])
        ("r", "o") = some c ∧ (3 : Int) ≤ c :=
  ⟨bookmark_monotonic_spec.1 [(("r", "o"), 3)] ("r", "o") 5 3 rfl,
   bookmark_monotonic_spec.2.2 [(("r", "o"), 3)]
     [(("r", "o"), 5), (("r2", "o2"), 1), (("r", "o"), 4)] ("r", "o") 3 rfl⟩

/-- C7: the records of one search partition never exceed the 1000-result
ceiling across all pages, whatever the upstream pages and reported total
count are. -/
theorem search_ceiling_spec (pages : Nat → List Val) (totalCount : Nat) :
    (searchPaginate pages totalCount).length ≤ MAX_RESULTS_LIMIT := by
  have h := searchCollect_length_le pages totalCount
    (MAX_RESULTS_LIMIT / MAX_PER_PAGE) 0
  unfold searchPaginate
  calc (searchCollect pages totalCount 0
          (MAX_RESULTS_LIMIT / MAX_PER_PAGE)).length
      ≤ (MAX_RESULTS_LIMIT / MAX_PER_PAGE) * MAX_PER_PAGE := h
    _ ≤ MAX_RESULTS_LIMIT := Nat.div_mul_le_self _ _

/-- C8: events post-processing moves the repo value to target_repo and the
org value to target_org, removes the top-level repo and org keys, and
raises a KeyError when either source key is absent. -/
theorem events_post_process_spec (row : Context) :
    (∀ rv ov, ctxGet row "repo" = some rv → ctxGet row "org" = some ov →
        eventsPostProcess row = .ok (eventsPostOut row rv ov)
      ∧ ctxGet (eventsPostOut row rv ov) "target_repo" = some rv
      ∧ ctxGet (eventsPostOut row rv ov) "target_org" = some ov
      ∧ ctxGet (eventsPostOut row rv ov) "repo" = none
      ∧ ctxGet (eventsPostOut row rv ov) "org" = none)
  ∧ (ctxGet row "repo" = none →
       eventsPostProcess row = .error "KeyError: repo")
  ∧ (∀ rv, ctxGet row "repo" = some rv → ctxGet row "org" = none →
       eventsPostProcess row = .error "KeyError: org") := by
  refine ⟨?_, ?_, ?_⟩
  · intro rv ov hr horg
    have hget : ctxGet (ctxSet (ctxRemove row "repo") "target_repo" rv)
        "org" = some ov := by
      simp [ctxGet_ctxSet, ctxGet_ctxRemove, horg]
    refine ⟨?_, ?_, ?_, ?_, ?_⟩
    · simp [eventsPostProcess, ctxPop, hr, hget, eventsPostOut]
    · simp [eventsPostOut, ctxGet_ctxSet, ctxGet_ctxRemove, hr]
    · simp [eventsPostOut, ctxGet_ctxSet]
    · simp [eventsPostOut, ctxGet_ctxSet, ctxGet_ctxRemove]
    · simp [eventsPostOut, ctxGet_ctxSet, ctxGet_ctxRemove]
  · intro hr
    simp [eventsPostProcess, ctxPop, hr]
  · intro rv hr horg
    have hget : ctxGet (ctxSet (ctxRemove row "repo") "target_repo" rv)
        "org" = none := by
      simp [ctxGet_ctxSet, ctxGet_ctxRemove, horg]
    simp [eventsPostProcess, ctxPop, hr, hget]

/-- C8 witness: a concrete events record with repo and org fields comes out
with target_repo populated and no top-level repo key. -/
theorem events_post_process_spec_witness :
    ctxGet (eventsPostOut
        [("repo", Val.str "r1"), ("org", Val.str "o1"), ("id", Val.int 1)]
        (Val.str "r1") (Val.str "o1")) "target_repo" = some (Val.str "r1")
  ∧ ctxGet (eventsPostOut
        [("repo", Val.str "r1"), ("org", Val.str "o1"), ("id", Val.int 1)]
        (Val.str "r1") (Val.str "o1")) "repo" = none :=
  ⟨((events_post_process_spec
      [("repo", Val.str "r1"), ("org", Val.str "o1"),
       ("id", Val.int 1)]).1 (Val.str "r1") (Val.str "o1")
      rfl rfl).2.1,
   ((events_post_process_spec
      [("repo", Val.str "r1"), ("org", Val.str "o1"),
       ("id", Val.int 1)]).1 (Val.str "r1") (Val.str "o1")
      rfl rfl).2.2.2.1⟩

/-- C9: issue-comments post-processing sets issue_number to the integer
parsed from the trailing path segment of issue_url and raises when
issue_url is absent; issue-events post-processing sets issue_number to
int(issue.number) and issue_url to issue.url from the nested issue
sub-object and raises when it is absent. -/
theorem issue_post_process_spec (row : Context) :
    (∀ url n, ctxGet row "issue_url" = some (Val.str url) →
       parseDecInt (trailingSegment url) = some n →
       issueCommentsPostProcess row =
         .ok (ctxSet row "issue_number" (Val.int n)))
  ∧ (ctxGet row "issue_url" = none →
       issueCommentsPostProcess row = .error "KeyError: issue_url")
  ∧ (∀ issue n u, ctxGet row "issue" = some issue →
       vGet issue "number" = some (Val.int n) →
       vGet issue "url" = some u →
       issueEventsPostProcess row =
         .ok (ctxSet (ctxSet row "issue_number" (Val.int n)) "issue_url" u))
  ∧ (ctxGet row "issue" = none →
       issueEventsPostProcess row = .error "KeyError: issue") := by
  refine ⟨?_, ?_, ?_, ?_⟩
  · intro url n hu hp
    simp [issueCommentsPostProcess, hu, pyInt, hp]
  · intro hu
    simp [issueCommentsPostProcess, hu]
  · intro issue n u hi hn hu
    simp [issueEventsPostProcess, hi, hn, hu, pyInt]
  · intro hi
    simp [issueEventsPostProcess, hi]

/-- C9 witness: a concrete comment record gains issue_number 42 parsed from
the trailing segment of its issue_url. -/
theorem issue_post_process_spec_witness :
    issueCommentsPostProcess
        [("issue_url", Val.str "https://api.github.com/r/issues/42")] =
      .ok [("issue_url", Val.str "https://api.github.com/r/issues/42"),
           ("issue_number", Val.int 42)] :=
  (issue_post_process_spec
      [("issue_url", Val.str "https://api.github.com/r/issues/42")]).1
    "https://api.github.com/r/issues/42" 42 rfl rfl

/-- C10: no context built by the two propagators of this module ever holds
the key events, so the zero-counter skip branch of the events and
issue-events streams is never taken on such contexts and both delegate to
a normal fetch. -/
theorem no_events_key_spec (repoRecord issueRecord : Val) (c0 c1 : Context)
    (fetch : Option Context → List Val)
    (h0 : repositoryGetChildContext repoRecord = .ok c0)
    (h1 : issuesGetChildContext issueRecord (some c0) = .ok c1) :
    ctxGet c0 "events" = none
  ∧ ctxGet c1 "events" = none
  ∧ eventsGetRecords fetch (some c0) = FetchResult.mk (fetch (some c0)) 1
  ∧ issueEventsGetRecords fetch (some c0) =
      FetchResult.mk (fetch (some c0)) 1
  ∧ eventsGetRecords fetch (some c1) = FetchResult.mk (fetch (some c1)) 1
  ∧ issueEventsGetRecords fetch (some c1) =
      FetchResult.mk (fetch (some c1)) 1 := by
  obtain ⟨owner, login, nm, ho, hl, hn, rfl⟩ :=
    repositoryGetChildContext_shape repoRecord c0 h0
  obtain ⟨n, cm, hnum, hcom, rfl⟩ :=
    issuesGetChildContext_shape issueRecord _ c1 h1
  have hc0 : ctxGet [("org", login), ("repo", nm)] "events" = none := by
    simp [ctxGet]
  have hc1 : ctxGet (ctxSet (ctxSet [("org", login), ("repo", nm)]
      "issue_number" n) "comments" cm) "events" = none := by
    simp [ctxGet_ctxSet, hc0]
  exact ⟨hc0, hc1,
    skipGated_delegate_none "events" fetch _ hc0,
    skipGated_delegate_none "events" fetch _ hc0,
    skipGated_delegate_none "events" fetch _ hc1,
    skipGated_delegate_none "events" fetch _ hc1⟩

/-- C10 witness: at a concrete repository record the root-hop context holds
no events key and the events stream performs its normal fetch. -/
theorem no_events_key_spec_witness :
    ctxGet [("org", Val.str "octo"), ("repo", Val.str "hw")] "events" = none
  ∧ eventsGetRecords (fun _ => [Val.int 9])
      (some [("org", Val.str "octo"), ("repo", Val.str "hw")]) =
      FetchResult.mk [Val.int 9] 1 :=
  ⟨(no_events_key_spec
      (Val.obj [("owner", Val.obj [("login", Val.str "octo")]),
                ("name", Val.str "hw")])
      (Val.obj [("number", Val.int 1), ("comments", Val.int 0)])
      [("org", Val.str "octo"), ("repo", Val.str "hw")]
      [("org", Val.str "octo"), ("repo", Val.str "hw"),
       ("issue_number", Val.int 1), ("comments", Val.int 0)]
      (fun _ => [Val.int 9]) rfl rfl).1,
   (no_events_key_spec
      (Val.obj [("owner", Val.obj [("login", Val.str "octo")]),
                ("name", Val.str "hw")])
      (Val.obj [("number", Val.int 1), ("comments", Val.int 0)])
      [("org", Val.str "octo"), ("repo", Val.str "hw")]
      [("org", Val.str "octo"), ("repo", Val.str "hw"),
       ("issue_number", Val.int 1), ("comments", Val.int 0)]
      (fun _ => [Val.int 9]) rfl rfl).2.2.1⟩

end TapGitHub
